import Mathlib

/-!
Verification development for the rag_etl retrieval/ranking subsystem.

Shallow embedding of:
- `src/src/transform_rules.py` (TransformRules: PII masking, metadata classification)
- `src/rag_etl/src/vectorstore.py` (VectorStore: index lifecycle, similarity and
  weighted search, persistence)
- `src/src/query_service.py` (QueryService: citation/context construction,
  no-result short circuit)

External capabilities (the SentenceTransformer encoder, faiss normalize_L2 and
IndexFlatIP search, the OpenAI answer generation) are modelled as black-box
function parameters, following the spec's scoping.  All machine floating point
values are rational numbers, so vectors and scores are modelled over ℚ.
Python strings are modelled as Lean strings (sequences of characters), with the
ASCII fragment of the `re` module semantics reproduced for the four concrete
PII patterns that appear in the source.
-/

/-! ## Data model: transform_rules.py -/

/-- DocumentMetadata from transform_rules.py: provenance and trust metadata of a chunk. -/
structure DocumentMetadata where
  source_system : String
  classification : String
  weight : ℚ
  file_path : String
  pii_masked : Bool
deriving DecidableEq

/-- One per-source entry of the static source_config dict.  Each field is
optional because the Python code reads every field with `.get(key, default)`. -/
structure SourceEntry where
  classification : Option String
  weight : Option ℚ
  pii_mask : Option Bool
deriving DecidableEq

/-- The static source_config mapping (a Python dict looked up with
`.get(source_system, {})`); `none` models an absent key. -/
abbrev SourceConfig := String → Option SourceEntry

/-! ## ASCII model of the Python `re` fragment used by TransformRules._mask_pii

The four compiled patterns are
  email:   \b[A-Za-z0-9._%+-]+@[A-Za-z0-9.-]+\.[A-Z|a-z]{2,}\b
  phone:   \b\d{3}[-.]?\d{3}[-.]?\d{4}\b
  ssn:     \b\d{3}-?\d{2}-?\d{4}\b
  address: \b\d+\s+[A-Za-z\s]+(?:Street|St|Avenue|Ave|Road|Rd|Drive|Dr|Lane|Ln)\b
           (IGNORECASE)
Each is hand-compiled into a matcher that, given the full character list and a
start position, returns the end position of the match the backtracking engine
would find there (greedy quantifiers try longest first; alternatives are tried
in written order), or `none`.  `re.sub` semantics are reproduced by `pySub`:
scan left to right, replace the leftmost match, continue after its end. -/

/-- Word character for \b, ASCII fragment: letters, digits, underscore. -/
def isWordChar (c : Char) : Bool := c.isAlphanum || c == '_'

/-- Whitespace for \s, ASCII fragment: space, \t, \n, \r, \f, \v. -/
def isSpaceChar (c : Char) : Bool :=
  c == ' ' || c == '\t' || c == '\n' || c == '\r' || c == Char.ofNat 12 || c == Char.ofNat 11

/-- Whether the character at position i exists and is a word character. -/
def wordAt (s : List Char) (i : Nat) : Bool :=
  match s[i]? with
  | some c => isWordChar c
  | none => false

/-- Word boundary \b at position i: exactly one of the two adjacent positions
holds a word character (out-of-range counts as non-word). -/
def boundary (s : List Char) (i : Nat) : Bool :=
  (if i = 0 then false else wordAt s (i - 1)) != wordAt s i

/-- Length of the maximal run of characters satisfying p starting at i. -/
def runLen (p : Char → Bool) (s : List Char) (i : Nat) : Nat :=
  ((s.drop i).takeWhile p).length

/-- The first n positions starting at i are all characters satisfying p. -/
def hasRun (p : Char → Bool) (s : List Char) (i n : Nat) : Bool :=
  n ≤ runLen p s i

/-- Candidate consumption counts for a greedy quantifier: hi, hi-1, ..., lo. -/
def downRange (hi lo : Nat) : List Nat :=
  (List.range' lo (hi + 1 - lo)).reverse

/-- Case-insensitive literal match of lit at position i. -/
def matchCI (s : List Char) (i : Nat) (lit : List Char) : Bool :=
  ((s.drop i).take lit.length).length = lit.length &&
    (((s.drop i).take lit.length).zip lit).all (fun p => p.1.toLower == p.2.toLower)

/-- Character class [A-Za-z0-9._%+-] (local part of the email pattern). -/
def emailLocalChar (c : Char) : Bool :=
  c.isAlpha || c.isDigit || c == '.' || c == '_' || c == '%' || c == '+' || c == '-'

/-- Character class [A-Za-z0-9.-] (domain part of the email pattern). -/
def emailDomainChar (c : Char) : Bool :=
  c.isAlpha || c.isDigit || c == '.' || c == '-'

/-- Character class [A-Z|a-z] (the TLD part of the email pattern; the source
pattern literally includes the bar character in the class). -/
def tldChar (c : Char) : Bool := c.isAlpha || c == '|'

/-- Character class [A-Za-z\s] of the address pattern. -/
def addrChar (c : Char) : Bool := c.isAlpha || isSpaceChar c

/-- Matcher for \b[A-Za-z0-9._%+-]+@[A-Za-z0-9.-]+\.[A-Z|a-z]{2,}\b anchored at
position i.  The local-part plus needs no backtracking because the class does
not contain the at sign; the domain plus and the TLD repetition backtrack
greedily (longest first), as `downRange` enumerates. -/
def emailMatchEnd (s : List Char) (i : Nat) : Option Nat :=
  if !boundary s i then none else
  let l := runLen emailLocalChar s i
  if l = 0 then none else
  if s[i + l]? ≠ some '@' then none else
  let dstart := i + l + 1
  let m := runLen emailDomainChar s dstart
  if m = 0 then none else
  (downRange m 1).findSome? (fun d =>
    if s[dstart + d]? = some '.' then
      let tstart := dstart + d + 1
      let r := runLen tldChar s tstart
      if r < 2 then none else
      (downRange r 2).findSome? (fun t =>
        if boundary s (tstart + t) then some (tstart + t) else none)
    else none)

/-- Optional separator [-.] of the phone pattern. -/
def isPhoneSep (c : Option Char) : Bool :=
  match c with
  | some c => c == '-' || c == '.'
  | none => false

/-- Tail \d{4}\b of the phone and ssn patterns, anchored at p. -/
def fourDigitsBoundary (s : List Char) (p : Nat) : Option Nat :=
  if hasRun Char.isDigit s p 4 && boundary s (p + 4) then some (p + 4) else none

/-- Tail \d{3}[-.]?\d{4}\b of the phone pattern, anchored at p.  The greedy
optional separator is tried consumed-first, then empty, matching backtracking
order. -/
def phoneTail (s : List Char) (p : Nat) : Option Nat :=
  if hasRun Char.isDigit s p 3 then
    (if isPhoneSep s[p + 3]? then fourDigitsBoundary s (p + 4) else none).orElse
      (fun _ => fourDigitsBoundary s (p + 3))
  else none

/-- Matcher for \b\d{3}[-.]?\d{3}[-.]?\d{4}\b anchored at position i. -/
def phoneMatchEnd (s : List Char) (i : Nat) : Option Nat :=
  if boundary s i && hasRun Char.isDigit s i 3 then
    (if isPhoneSep s[i + 3]? then phoneTail s (i + 4) else none).orElse
      (fun _ => phoneTail s (i + 3))
  else none

/-- Tail \d{2}-?\d{4}\b of the ssn pattern, anchored at p. -/
def ssnTail (s : List Char) (p : Nat) : Option Nat :=
  if hasRun Char.isDigit s p 2 then
    (if s[p + 2]? = some '-' then fourDigitsBoundary s (p + 3) else none).orElse
      (fun _ => fourDigitsBoundary s (p + 2))
  else none

/-- Matcher for \b\d{3}-?\d{2}-?\d{4}\b anchored at position i. -/
def ssnMatchEnd (s : List Char) (i : Nat) : Option Nat :=
  if boundary s i && hasRun Char.isDigit s i 3 then
    (if s[i + 3]? = some '-' then ssnTail s (i + 4) else none).orElse
      (fun _ => ssnTail s (i + 3))
  else none

/-- Street-type alternatives of the address pattern, in the order written in
the source (alternation tries them left to right). -/
def streetWords : List (List Char) :=
  ["Street".toList, "St".toList, "Avenue".toList, "Ave".toList, "Road".toList,
   "Rd".toList, "Drive".toList, "Dr".toList, "Lane".toList, "Ln".toList]

/-- Matcher for \b\d+\s+[A-Za-z\s]+(?:Street|...|Ln)\b (IGNORECASE) anchored at
position i.  The digit plus needs no backtracking (the following \s excludes
digits); the whitespace plus and the letter-or-space plus backtrack greedily;
the alternatives are tried in written order; letters are compared
case-insensitively. -/
def addrMatchEnd (s : List Char) (i : Nat) : Option Nat :=
  if !boundary s i then none else
  let dn := runLen Char.isDigit s i
  if dn = 0 then none else
  let p := i + dn
  let wn := runLen isSpaceChar s p
  if wn = 0 then none else
  (downRange wn 1).findSome? (fun w =>
    let q := p + w
    let cn := runLen addrChar s q
    if cn = 0 then none else
    (downRange cn 1).findSome? (fun c =>
      let r := q + c
      streetWords.findSome? (fun suf =>
        if matchCI s r suf && boundary s (r + suf.length) then some (r + suf.length)
        else none)))

/-- Global substitution driver reproducing `pattern.sub(repl, s)`: scan left to
right; at each position emit the replacement for a match (continuing after its
end) or copy one character.  The fuel argument bounds the number of steps; each
step advances at least one position, and every pattern above only produces
matches that consume at least one character. -/
def subAux (m : List Char → Nat → Option Nat) (repl : List Char) (s : List Char) :
    Nat → Nat → List Char
  | 0, i => s.drop i
  | fuel + 1, i =>
    if h : i < s.length then
      match m s i with
      | some e =>
        if i < e then repl ++ subAux m repl s fuel e
        else s.get ⟨i, h⟩ :: subAux m repl s fuel (i + 1)
      | none => s.get ⟨i, h⟩ :: subAux m repl s fuel (i + 1)
    else []

/-- Python re.sub with a fixed replacement string. -/
def pySub (m : List Char → Nat → Option Nat) (repl : String) (s : String) : String :=
  ⟨subAux m repl.toList s.toList (s.toList.length + 1) 0⟩

/-- TransformRules._mask_pii: the four global substitution passes in the fixed
dict-insertion order email, phone, ssn, address. -/
def maskPii (content : String) : String :=
  pySub addrMatchEnd "[ADDRESS_MASKED]"
    (pySub ssnMatchEnd "[SSN_MASKED]"
      (pySub phoneMatchEnd "[PHONE_MASKED]"
        (pySub emailMatchEnd "[EMAIL_MASKED]" content)))

/-- Default (empty dict) source entry used when source_system is absent. -/
def emptyEntry : SourceEntry := ⟨none, none, none⟩

/-- TransformRules.apply_transform: mask when the source's pii_mask flag is
set, and build the metadata from the static configuration with defaults
classification "PUBLIC", weight 1.0, pii_mask false. -/
def applyTransform (cfg : SourceConfig) (content source_system file_path : String) :
    String × DocumentMetadata :=
  let e := (cfg source_system).getD emptyEntry
  let transformed := if e.pii_mask.getD false then maskPii content else content
  (transformed,
   { source_system := source_system
     classification := e.classification.getD "PUBLIC"
     weight := e.weight.getD 1
     file_path := file_path
     pii_masked := e.pii_mask.getD false })

/-! ## Data model: vectorstore.py

Embedding vectors and similarity scores are float values in the source; every
float value is a rational number, so both are modelled over ℚ.  The
SentenceTransformer encoder, faiss.normalize_L2 (applied row-wise to the
stacked matrix) and faiss.IndexFlatIP.search are external capabilities and are
modelled as black-box function parameters gathered in `Capability`. -/

/-- An embedding vector (a row of floats). -/
abbrev QVec := List ℚ

/-- DocumentChunk from vectorstore.py. -/
structure DocumentChunk where
  content : String
  metadata : DocumentMetadata
  embedding : Option QVec
deriving DecidableEq

/-- The faiss IndexFlatIP object: its dimension and the rows added so far, in
insertion order.  `ntotal` is the row count. -/
structure FaissIndex where
  dimension : Nat
  rows : List QVec
deriving DecidableEq

/-- The faiss running count of indexed vectors. -/
def FaissIndex.ntotal (ix : FaissIndex) : Nat := ix.rows.length

/-- In-memory VectorStore state: the faiss index and the parallel document
list. -/
structure VectorStore where
  index : FaissIndex
  documents : List DocumentChunk
deriving DecidableEq

/-- Black-box external capabilities: the sentence-transformer encoder, the
row-wise faiss.normalize_L2 (a float-to-float map, hence rational-to-rational),
and faiss index search returning (score, id) pairs, where faiss ids are 64-bit
signed integers (the sentinel -1 marks a missing neighbor). -/
structure Capability where
  encode : String → QVec
  normRow : QVec → QVec
  search : List QVec → QVec → Nat → List (ℚ × Int)

/-- Squared L2 norm of a vector; over ℚ it vanishes exactly on the zero
vector. -/
def normSq (v : QVec) : ℚ := (v.map (fun x => x * x)).sum

/-! ### Persistence

`_save_index` writes the serialized faiss index to `{path}.index` and the
pickled document list to `{path}.docs`, in that order, each as a plain
in-place file write.  The two file names are keyed by the path prefix and the
suffix kind; the two fixed suffixes never collide as strings, so the key space
is modelled as a pair.  Serialization is modelled as faithful (an artifact
stores the exact structure written). -/

/-- Which of the two co-located artifact files a key names. -/
inductive ArtKind
  | kIndex
  | kDocs
deriving DecidableEq

/-- Content of a persisted file. -/
inductive Artifact
  | faissFile (ix : FaissIndex)
  | docsFile (docs : List DocumentChunk)
deriving DecidableEq

/-- The persistent store: an overwrite-ordered list of file writes; a read
returns the most recent write to the key. -/
abbrev Disk := List ((String × ArtKind) × Artifact)

/-- Read the current content of a file, or none if it was never written. -/
def dread (key : String × ArtKind) : Disk → Option Artifact
  | [] => none
  | (k, a) :: rest => if k = key then some a else dread key rest

/-- The sequence of file writes `_save_index` performs: the index file first,
then the documents file. -/
def saveWrites (st : VectorStore) (path : String) : List ((String × ArtKind) × Artifact) :=
  [((path, ArtKind.kIndex), Artifact.faissFile st.index),
   ((path, ArtKind.kDocs), Artifact.docsFile st.documents)]

/-- Apply a sequence of file writes to the disk, in order. -/
def applyWrites (d : Disk) : List ((String × ArtKind) × Artifact) → Disk
  | [] => d
  | w :: ws => applyWrites (w :: d) ws

/-- VectorStore._save_index: overwrite both artifacts in place. -/
def saveIndex (st : VectorStore) (path : String) (d : Disk) : Disk :=
  applyWrites d (saveWrites st path)

/-- VectorStore._load_or_create_index: if the index file exists, read it and
the documents file (a missing or ill-typed artifact raises, modelled as none);
otherwise create a fresh empty index of the configured dimension. -/
def loadOrCreate (d : Disk) (path : String) (dimension : Nat) : Option VectorStore :=
  match dread (path, ArtKind.kIndex) d with
  | some (Artifact.faissFile ix) =>
    match dread (path, ArtKind.kDocs) d with
    | some (Artifact.docsFile docs) => some ⟨ix, docs⟩
    | _ => none
  | some _ => none
  | none => some ⟨⟨dimension, []⟩, []⟩

/-! ### add_documents -/

/-- The per-chunk mutation in the add_documents loop: `if not chunk.embedding`
(true for None and for the empty list, which are the falsy values) store the
raw encoder output into the chunk. -/
def fillEmbedding (cap : Capability) (c : DocumentChunk) : DocumentChunk :=
  match c.embedding with
  | none => { c with embedding := some (cap.encode c.content) }
  | some [] => { c with embedding := some (cap.encode c.content) }
  | some _ => c

/-- The raw vector of a chunk after the fill step (the embedding is present for
every processed chunk). -/
def chunkVec (c : DocumentChunk) : QVec := c.embedding.getD []

/-- VectorStore.add_documents: fill missing embeddings from the encoder, stack
the raw vectors, L2-normalize the stacked matrix row-wise, add it to the faiss
index, extend the document list with the (mutated) chunks, and save.  With an
empty batch nothing happens, including no save. -/
def addDocuments (cap : Capability) (st : VectorStore) (path : String) (d : Disk)
    (chunks : List DocumentChunk) : VectorStore × Disk :=
  let processed := chunks.map (fillEmbedding cap)
  if processed.isEmpty then (st, d)
  else
    let matrix := processed.map (fun c => cap.normRow (chunkVec c))
    let st' : VectorStore :=
      ⟨⟨st.index.dimension, st.index.rows ++ matrix⟩, st.documents ++ processed⟩
    (st', saveIndex st' path d)

/-! ### similarity_search and weighted_search -/

/-- One element of the similarity_search result list (the Python dict with
content, metadata, score). -/
structure SearchResult where
  content : String
  metadata : DocumentMetadata
  score : ℚ
deriving DecidableEq

/-- Python list indexing `l[idx]` for an int index: non-negative indices read
from the front, indices in [-len, -1] wrap around from the back, anything
below -len raises IndexError (modelled as none; faiss ids are never below
-1, so that branch is unreachable from real searches). -/
def pyGet (l : List DocumentChunk) (idx : Int) : Option DocumentChunk :=
  if 0 ≤ idx then l[idx.toNat]?
  else if -(l.length : Int) ≤ idx then l[(idx + l.length).toNat]?
  else none

/-- The body of the similarity_search result loop for one (score, id) pair:
keep the hit when `score >= threshold and idx < len(self.documents)`, reading
the document with Python list indexing. -/
def hitResult (docs : List DocumentChunk) (threshold : ℚ) (h : ℚ × Int) :
    Option SearchResult :=
  if threshold ≤ h.1 ∧ h.2 < (docs.length : Int) then
    (pyGet docs h.2).map (fun doc => ⟨doc.content, doc.metadata, h.1⟩)
  else none

/-- VectorStore.similarity_search: empty result on an empty index; otherwise
encode and normalize the query, search the faiss index for k neighbors, and
keep the hits that pass the threshold and bound check, in search order. -/
def similaritySearch (cap : Capability) (st : VectorStore) (query : String)
    (k : Nat) (threshold : ℚ) : List SearchResult :=
  if st.index.ntotal = 0 then []
  else
    (cap.search st.index.rows (cap.normRow (cap.encode query)) k).filterMap
      (hitResult st.documents threshold)

/-- One element of the weighted_search result list: the similarity result dict
after the loop added the weighted_score key. -/
structure WeightedResult where
  content : String
  metadata : DocumentMetadata
  score : ℚ
  weighted_score : ℚ
deriving DecidableEq

/-- The weighted_search loop body: weighted_score = score * metadata.weight. -/
def addWeight (r : SearchResult) : WeightedResult :=
  ⟨r.content, r.metadata, r.score, r.score * r.metadata.weight⟩

/-- Stable insertion into a descending list: the new element goes before the
first element whose weighted_score is not larger.  An element equal on the key
to later-inserted ones therefore keeps its earlier position. -/
def insertDesc (x : WeightedResult) : List WeightedResult → List WeightedResult
  | [] => [x]
  | y :: ys =>
    if y.weighted_score ≤ x.weighted_score then x :: y :: ys else y :: insertDesc x ys

/-- Python `sorted(l, key=weighted_score, reverse=True)`: the stable descending
sort by weighted_score.  Python's timsort is stable, and reverse=True reverses
the comparison while keeping equal-key elements in input order; every stable
sort computes the same list, here realized as stable insertion sort. -/
def sortDesc : List WeightedResult → List WeightedResult
  | [] => []
  | x :: xs => insertDesc x (sortDesc xs)

/-- VectorStore.weighted_search: fetch k*2 candidates at the same threshold,
attach weighted scores, sort descending by weighted_score, return the first
k. -/
def weightedSearch (cap : Capability) (st : VectorStore) (query : String)
    (k : Nat) (threshold : ℚ) : List WeightedResult :=
  (sortDesc ((similaritySearch cap st query (k * 2) threshold).map addWeight)).take k

/-- The documents/index lock-step invariant of the spec:
`len(self.documents) == self.index.ntotal`. -/
def StoreInv (st : VectorStore) : Prop := st.documents.length = st.index.ntotal

/-! ## Data model: query_service.py

The OpenAI answer generation (the _generate_answer call, including its
try/except wrapper) is an external capability modelled as a black-box function
from query and context to an answer string. -/

/-- QueryRequest from query_service.py. -/
structure QueryRequest where
  query : String
  top_k : Nat
  threshold : ℚ

/-- Citation from query_service.py. -/
structure Citation where
  content : String
  source_system : String
  classification : String
  file_path : String
  score : ℚ
deriving DecidableEq

/-- QueryResponse from query_service.py. -/
structure QueryResponse where
  answer : String
  citations : List Citation
  query : String
deriving DecidableEq

/-- The fixed no-result answer string of process_query (it contains an
apostrophe, built here from its character code). -/
def noInfoAnswer : String :=
  "I couldn" ++ String.singleton (Char.ofNat 39) ++
    "t find relevant information to answer your query."

/-- QueryService._build_context: one line per chunk, joined by blank lines. -/
def buildContext (docs : List WeightedResult) : String :=
  String.intercalate "\n\n"
    (docs.map (fun d =>
      "[" ++ d.metadata.classification ++ "] From " ++ d.metadata.source_system ++
        ": " ++ d.content))

/-- The citation content truncation: first 200 characters plus an ellipsis when
longer than 200 characters, unchanged otherwise. -/
def truncateContent (c : String) : String :=
  if 200 < c.length then c.take 200 ++ "..." else c

/-- QueryService._build_citations: one citation per retrieved chunk; the score
is the weighted_score (always present on weighted_search results). -/
def buildCitations (docs : List WeightedResult) : List Citation :=
  docs.map (fun d =>
    ⟨truncateContent d.content, d.metadata.source_system, d.metadata.classification,
     d.metadata.file_path, d.weighted_score⟩)

/-- QueryService.process_query with the answer generation capability `gen`:
short-circuit to the fixed answer and empty citations when retrieval is empty,
otherwise build context and citations and call the generator. -/
def processQuery (cap : Capability) (gen : String → String → String)
    (st : VectorStore) (req : QueryRequest) : QueryResponse :=
  let docs := weightedSearch cap st req.query req.top_k req.threshold
  if docs.isEmpty then ⟨noInfoAnswer, [], req.query⟩
  else ⟨gen req.query (buildContext docs), buildCitations docs, req.query⟩

/-! ## Helper lemmas -/

/-- Sortedness by descending weighted_score: every earlier element has a
weighted_score at least that of every later one. -/
def SortedDesc (l : List WeightedResult) : Prop :=
  l.Pairwise (fun a b => b.weighted_score ≤ a.weighted_score)

theorem insertDesc_perm (x : WeightedResult) (l : List WeightedResult) :
    List.Perm (insertDesc x l) (x :: l) := by
  induction l with
  | nil => exact List.Perm.refl _
  | cons y ys ih =>
    rw [insertDesc]
    by_cases hc : y.weighted_score ≤ x.weighted_score
    · rw [if_pos hc]
    · rw [if_neg hc]
      exact (ih.cons y).trans (List.Perm.swap x y ys)

theorem sortDesc_perm (l : List WeightedResult) : List.Perm (sortDesc l) l := by
  induction l with
  | nil => exact List.Perm.refl _
  | cons x xs ih =>
    rw [sortDesc]
    exact (insertDesc_perm x (sortDesc xs)).trans (ih.cons x)

theorem insertDesc_sorted {x : WeightedResult} {l : List WeightedResult}
    (h : SortedDesc l) : SortedDesc (insertDesc x l) := by
  induction l with
  | nil => simp [insertDesc, SortedDesc]
  | cons y ys ih =>
    rw [SortedDesc, List.pairwise_cons] at h
    obtain ⟨hy, hys⟩ := h
    rw [insertDesc]
    by_cases hc : y.weighted_score ≤ x.weighted_score
    · rw [if_pos hc]
      refine List.Pairwise.cons ?_ (List.Pairwise.cons hy hys)
      intro z hz
      rcases List.mem_cons.mp hz with rfl | hz'
      · exact hc
      · exact le_trans (hy z hz') hc
    · rw [if_neg hc]
      refine List.Pairwise.cons ?_ (ih hys)
      intro z hz
      rcases List.mem_cons.mp ((insertDesc_perm x ys).mem_iff.mp hz) with rfl | hz'
      · exact le_of_lt (lt_of_not_le hc)
      · exact hy z hz'

theorem sortDesc_sorted (l : List WeightedResult) : SortedDesc (sortDesc l) := by
  induction l with
  | nil => simp [sortDesc, SortedDesc]
  | cons x xs ih => exact insertDesc_sorted ih

theorem filter_insertDesc (c : ℚ) (x : WeightedResult) (l : List WeightedResult) :
    (insertDesc x l).filter (fun r => decide (r.weighted_score = c)) =
      if x.weighted_score = c then
        x :: l.filter (fun r => decide (r.weighted_score = c))
      else l.filter (fun r => decide (r.weighted_score = c)) := by
  induction l with
  | nil => by_cases hx : x.weighted_score = c <;> simp [insertDesc, hx]
  | cons y ys ih =>
    rw [insertDesc]
    by_cases hc : y.weighted_score ≤ x.weighted_score
    · rw [if_pos hc]
      by_cases hx : x.weighted_score = c <;> simp [List.filter_cons, hx]
    · rw [if_neg hc]
      have hylt : x.weighted_score < y.weighted_score := lt_of_not_le hc
      by_cases hx : x.weighted_score = c
      · have hy : ¬ y.weighted_score = c := by
          intro h
          exact absurd (h.trans hx.symm) (ne_of_gt hylt)
        simp [List.filter_cons, hy, ih, hx]
      · by_cases hy : y.weighted_score = c <;> simp [List.filter_cons, hy, ih, hx]

theorem sortDesc_filter (l : List WeightedResult) (c : ℚ) :
    (sortDesc l).filter (fun r => decide (r.weighted_score = c)) =
      l.filter (fun r => decide (r.weighted_score = c)) := by
  induction l with
  | nil => rfl
  | cons x xs ih =>
    rw [sortDesc, filter_insertDesc]
    by_cases hx : x.weighted_score = c <;> simp [List.filter_cons, hx, ih]

theorem loadOrCreate_saveIndex (st : VectorStore) (path : String) (d : Disk)
    (dim : Nat) : loadOrCreate (saveIndex st path d) path dim = some st := by
  simp [loadOrCreate, saveIndex, saveWrites, applyWrites, dread]

theorem pyGet_mem {l : List DocumentChunk} {i : Int} {d : DocumentChunk}
    (h : pyGet l i = some d) : d ∈ l := by
  unfold pyGet at h
  split at h
  · obtain ⟨hlt, he⟩ := List.getElem?_eq_some_iff.mp h
    exact he ▸ List.getElem_mem hlt
  · split at h
    · obtain ⟨hlt, he⟩ := List.getElem?_eq_some_iff.mp h
      exact he ▸ List.getElem_mem hlt
    · exact absurd h (by simp)

/-! ## Concrete instances used by witnesses, examples and counterexamples -/

/-- A low-trust (weight 0.5) metadata record. -/
def mdLow : DocumentMetadata := ⟨"github", "PUBLIC", 1/2, "g.md#chunk_0", false⟩

/-- A high-trust (weight 1.0) metadata record. -/
def mdHigh : DocumentMetadata := ⟨"hr", "CONFIDENTIAL", 1, "h.txt#chunk_0", false⟩

/-- A low-weight document chunk. -/
def docLow : DocumentChunk := ⟨"low weight doc", mdLow, some [1]⟩

/-- A high-weight document chunk. -/
def docHigh : DocumentChunk := ⟨"high weight doc", mdHigh, some [1]⟩

/-- A two-document store; the low-weight document sits at index 0. -/
def stEx : VectorStore := ⟨⟨1, [[1], [1]]⟩, [docLow, docHigh]⟩

/-- A concrete capability instance whose index search reports both documents
with the same raw score 0.9, low-weight document first. -/
def capEx : Capability :=
  ⟨fun _ => [1], fun v => v, fun _ _ _ => [(9/10, 0), (9/10, 1)]⟩

/-- An empty store. -/
def stEmpty : VectorStore := ⟨⟨1, []⟩, []⟩

/-- A one-document store used by the sentinel-index counterexample. -/
def stOne : VectorStore := ⟨⟨1, [[1]]⟩, [docHigh]⟩

/-- A capability whose index search returns the faiss missing-neighbor
sentinel id -1 (as faiss does when fewer than k vectors are indexed) with a
score above any usual threshold. -/
def capSentinel : Capability :=
  ⟨fun _ => [1], fun v => v, fun _ _ _ => [(9/10, -1)]⟩

/-- A capability whose encoder returns a zero vector, and whose normalize
models the faiss normalize_L2 zero-norm guard (rows with zero squared norm are
left unchanged; only that branch is exercised by the counterexample that uses
this instance). -/
def capZero : Capability :=
  ⟨fun _ => [0], fun v => if normSq v = 0 then v else [], fun _ _ _ => []⟩

/-- A capability whose normalize fixes rows of squared norm 0 or 1 and moves
every other row, the abstract behavior of exact L2 normalization used to
instantiate normalization hypotheses. -/
def capNorm : Capability :=
  ⟨fun _ => [1], fun v => if normSq v = 0 ∨ normSq v = 1 then v else [],
   fun _ _ _ => []⟩

/-- A source configuration with a single fully populated entry. -/
def cfgMask : SourceConfig :=
  fun s => if s = "hr" then some ⟨some "CONFIDENTIAL", some 2, some true⟩ else none

/-! ## Claim theorems -/

/-- C2: for every query string, every k and every threshold, every result
returned by similarity_search has score >= threshold; no result with a score
below the threshold is ever returned. -/
theorem C2_similaritySearch_threshold (cap : Capability) (st : VectorStore)
    (q : String) (k : Nat) (t : ℚ) :
    ∀ r ∈ similaritySearch cap st q k t, t ≤ r.score := by
  intro r hr
  unfold similaritySearch at hr
  split at hr
  · simp at hr
  · obtain ⟨hit, _, hres⟩ := List.mem_filterMap.mp hr
    unfold hitResult at hres
    split at hres
    · rename_i hcond
      obtain ⟨doc, _, hdoc⟩ := Option.map_eq_some'.mp hres
      subst hdoc
      exact hcond.1
    · exact absurd hres (by simp)

/-- Witness for C2 at a concrete capability, store, query and threshold. -/
theorem C2_witness :
    (45 : ℚ)/100 ≤ (SearchResult.mk "low weight doc" mdLow (9/10)).score :=
  C2_similaritySearch_threshold capEx stEx "query" 2 (45/100)
    ⟨"low weight doc", mdLow, 9/10⟩ (by
      have h0 : hitResult [docLow, docHigh] (45/100) (9/10, 0) =
          some ⟨"low weight doc", mdLow, 9/10⟩ := by
        norm_num [hitResult, pyGet, docLow]
      have h1 : hitResult [docLow, docHigh] (45/100) (9/10, 1) =
          some ⟨"high weight doc", mdHigh, 9/10⟩ := by
        norm_num [hitResult, pyGet, docHigh]
      simp [similaritySearch, capEx, stEx, FaissIndex.ntotal, List.filterMap_cons,
        h0, h1])

/-- C5: when the source's pii_mask flag is true, apply_transform applies the
four independent global substitution passes in the fixed order email, phone,
ssn, address, each replacing every match with its fixed token; in particular
"Contact me at a@b.com or 555-123-4567" becomes
"Contact me at [EMAIL_MASKED] or [PHONE_MASKED]". -/
theorem C5_applyTransform_masking (cfg : SourceConfig) (content src path : String)
    (h : ((cfg src).getD emptyEntry).pii_mask.getD false = true) :
    (applyTransform cfg content src path).1 =
      pySub addrMatchEnd "[ADDRESS_MASKED]"
        (pySub ssnMatchEnd "[SSN_MASKED]"
          (pySub phoneMatchEnd "[PHONE_MASKED]"
            (pySub emailMatchEnd "[EMAIL_MASKED]" content))) ∧
    maskPii "Contact me at a@b.com or 555-123-4567" =
      "Contact me at [EMAIL_MASKED] or [PHONE_MASKED]" := by
  constructor
  · show (if ((cfg src).getD emptyEntry).pii_mask.getD false then maskPii content
      else content) = _
    rw [h]
    rfl
  · rfl

/-- Witness for C5 at a concrete configuration whose hr entry masks PII. -/
theorem C5_witness :
    maskPii "Contact me at a@b.com or 555-123-4567" =
      "Contact me at [EMAIL_MASKED] or [PHONE_MASKED]" :=
  (C5_applyTransform_masking cfgMask "x" "hr" "f" rfl).2

/-- C8: whenever weighted retrieval returns an empty list, process_query
returns the fixed no-information answer with an empty citation list, for every
answer-generation capability (so the generator is never consulted). -/
theorem C8_noResults_shortCircuit (cap : Capability) (st : VectorStore)
    (req : QueryRequest)
    (h : weightedSearch cap st req.query req.top_k req.threshold = []) :
    ∀ gen : String → String → String,
      processQuery cap gen st req = ⟨noInfoAnswer, [], req.query⟩ := by
  intro gen
  unfold processQuery
  rw [h]
  rfl

/-- Witness for C8 at a concrete empty store. -/
theorem C8_witness :
    processQuery capEx (fun _ _ => "generated") stEmpty ⟨"hello", 5, 7/10⟩ =
      ⟨noInfoAnswer, [], "hello"⟩ :=
  C8_noResults_shortCircuit capEx stEmpty ⟨"hello", 5, 7/10⟩ rfl
    (fun _ _ => "generated")

/-- C9: the metadata produced by apply_transform has classification, weight
and pii_masked determined solely by the configuration entry for source_system
(independent of the content and the file path), with defaults PUBLIC, 1.0 and
false when the source or the field is absent, and pii_masked equal to the
configured flag regardless of the content. -/
theorem C9_metadata_from_config (cfg : SourceConfig)
    (content content' src path path' : String) :
    ((applyTransform cfg content src path).2.classification =
        (applyTransform cfg content' src path').2.classification ∧
      (applyTransform cfg content src path).2.weight =
        (applyTransform cfg content' src path').2.weight ∧
      (applyTransform cfg content src path).2.pii_masked =
        (applyTransform cfg content' src path').2.pii_masked) ∧
    (applyTransform cfg content src path).2.pii_masked =
      ((cfg src).getD emptyEntry).pii_mask.getD false ∧
    (cfg src = none →
      (applyTransform cfg content src path).2 = ⟨src, "PUBLIC", 1, path, false⟩) ∧
    (cfg src = some emptyEntry →
      (applyTransform cfg content src path).2 = ⟨src, "PUBLIC", 1, path, false⟩) := by
  refine ⟨⟨rfl, rfl, rfl⟩, rfl, ?_, ?_⟩
  · intro h
    simp [applyTransform, h, emptyEntry]
  · intro h
    simp [applyTransform, h, emptyEntry]

/-- Witness for C9 at a configuration with no entries. -/
theorem C9_witness :
    (applyTransform (fun _ => none) "body" "ats" "f").2 =
      ⟨"ats", "PUBLIC", 1, "f", false⟩ :=
  (C9_metadata_from_config (fun _ => none) "body" "other" "ats" "f" "g").2.2.1 rfl

/-- C3: the invariant len(documents) == index.ntotal holds for a freshly
created empty store and for a store freshly loaded from a committed save, and
is preserved by every add_documents call with any list of chunks. -/
theorem C3_documents_index_invariant :
    (∀ dim path d, dread (path, ArtKind.kIndex) d = none →
      ∃ st, loadOrCreate d path dim = some st ∧ StoreInv st) ∧
    (∀ st path d dim, StoreInv st →
      ∃ st', loadOrCreate (saveIndex st path d) path dim = some st' ∧ StoreInv st') ∧
    (∀ cap st path d chunks, StoreInv st →
      StoreInv (addDocuments cap st path d chunks).1) := by
  refine ⟨?_, ?_, ?_⟩
  · intro dim path d h
    refine ⟨⟨⟨dim, []⟩, []⟩, ?_, rfl⟩
    unfold loadOrCreate
    rw [h]
  · intro st path d dim h
    exact ⟨st, loadOrCreate_saveIndex st path d dim, h⟩
  · intro cap st path d chunks h
    simp only [addDocuments]
    split
    · exact h
    · simp only [StoreInv, FaissIndex.ntotal] at h ⊢
      simp [h]

/-- Witness for C3 applying the add_documents preservation part at a concrete
store and chunk batch. -/
theorem C3_witness :
    StoreInv (addDocuments capEx stEmpty "p" [] [docLow]).1 :=
  C3_documents_index_invariant.2.2 capEx stEmpty "p" [] [docLow] rfl

/-- C4: persisting a store and reloading from the persisted artifacts yields a
store whose similarity_search agrees with the original on every query, k and
threshold (the embedding capability is a fixed function, hence
deterministic). -/
theorem C4_save_load_roundtrip (cap : Capability) (st : VectorStore)
    (path : String) (d : Disk) (dim : Nat) :
    ∃ st', loadOrCreate (saveIndex st path d) path dim = some st' ∧
      ∀ q k t, similaritySearch cap st' q k t = similaritySearch cap st q k t :=
  ⟨st, loadOrCreate_saveIndex st path d dim, fun _ _ _ => rfl⟩

/-- C7 counterexample: the claim asserts that after a save failure the on-disk
state is still the last successfully persisted state.  Starting from a disk
persisted for the empty store, running only the first of the two writes of a
save of a one-document store (a failure between the index write and the
documents write) leaves an index artifact that differs from the last persisted
one, so the claim is false at this input. -/
theorem C7_counterexample :
    dread ("p", ArtKind.kIndex)
        (applyWrites (saveIndex stEmpty "p" []) ((saveWrites stOne "p").take 1)) ≠
      dread ("p", ArtKind.kIndex) (saveIndex stEmpty "p" []) := by
  decide

/-- C7 amended: _save_index overwrites the two artifacts in place, the index
file first and the documents file second, with no temporary file and no atomic
replace; a save that fails after its first write leaves the new index artifact
next to the old documents artifact, while a completed save leaves both new
artifacts. -/
theorem C7_save_not_atomic (st0 st1 : VectorStore) (path : String) (d : Disk) :
    dread (path, ArtKind.kIndex)
        (applyWrites (saveIndex st0 path d) ((saveWrites st1 path).take 1)) =
      some (Artifact.faissFile st1.index) ∧
    dread (path, ArtKind.kDocs)
        (applyWrites (saveIndex st0 path d) ((saveWrites st1 path).take 1)) =
      some (Artifact.docsFile st0.documents) ∧
    dread (path, ArtKind.kIndex) (saveIndex st1 path (saveIndex st0 path d)) =
      some (Artifact.faissFile st1.index) ∧
    dread (path, ArtKind.kDocs) (saveIndex st1 path (saveIndex st0 path d)) =
      some (Artifact.docsFile st1.documents) := by
  refine ⟨?_, ?_, ?_, ?_⟩ <;>
    simp [saveIndex, saveWrites, applyWrites, dread]

/-- C6 counterexample: the claim asserts that a candidate whose returned index
is the negative sentinel -1 (returned by faiss when fewer than k neighbors
exist) is discarded.  With a one-document store and a search reporting the
sentinel pair (0.9, -1) above threshold, similarity_search does not discard the
candidate: the check idx < len(documents) passes for -1 and Python negative
indexing returns the last document, so the result list is nonempty. -/
theorem C6_counterexample :
    capSentinel.search stOne.index.rows
        (capSentinel.normRow (capSentinel.encode "q")) 5 = [(9/10, -1)] ∧
    similaritySearch capSentinel stOne "q" 5 (1/2) =
      [⟨"high weight doc", mdHigh, 9/10⟩] := by
  constructor
  · rfl
  · have h0 : hitResult [docHigh] (1/2) (9/10, -1) =
        some ⟨"high weight doc", mdHigh, 9/10⟩ := by
      norm_num [hitResult, pyGet, docHigh]
    unfold similaritySearch
    rw [if_neg (by decide)]
    show List.filterMap (hitResult [docHigh] (1/2)) [((9 : ℚ)/10, (-1 : Int))] = _
    rw [List.filterMap_cons, h0]
    rfl

/-- C6 amended: similarity_search discards any candidate whose returned index
is at least len(documents); a candidate with a negative index in [-len, -1]
and a passing score is not discarded but resolves through Python negative
indexing to the document at position len+idx, so every returned result still
carries the content and metadata of some element of the documents list. -/
theorem C6_bound_check (docs : List DocumentChunk) (thr s : ℚ) (i : Int) :
    ((docs.length : Int) ≤ i → hitResult docs thr (s, i) = none) ∧
    (thr ≤ s → -(docs.length : Int) ≤ i → i < 0 →
      ∃ doc ∈ docs, hitResult docs thr (s, i) = some ⟨doc.content, doc.metadata, s⟩) ∧
    (∀ cap st q k t, ∀ r ∈ similaritySearch cap st q k t,
      ∃ doc ∈ st.documents, r.content = doc.content ∧ r.metadata = doc.metadata) := by
  refine ⟨?_, ?_, ?_⟩
  · intro hle
    unfold hitResult
    exact if_neg fun hc => absurd hc.2 (not_lt.mpr hle)
  · intro hs hge hlt
    have hcond : thr ≤ s ∧ i < (docs.length : Int) :=
      ⟨hs, lt_of_lt_of_le hlt (Int.ofNat_nonneg docs.length)⟩
    have hj : (i + docs.length).toNat < docs.length := by omega
    refine ⟨docs[(i + docs.length).toNat], List.getElem_mem hj, ?_⟩
    unfold hitResult pyGet
    rw [if_pos hcond, if_neg (not_le.mpr hlt), if_pos hge,
      List.getElem?_eq_getElem hj]
    rfl
  · intro cap st q k t r hr
    unfold similaritySearch at hr
    split at hr
    · simp at hr
    · obtain ⟨hit, _, hres⟩ := List.mem_filterMap.mp hr
      unfold hitResult at hres
      split at hres
      · obtain ⟨doc, hget, hdoc⟩ := Option.map_eq_some'.mp hres
        subst hdoc
        exact ⟨doc, pyGet_mem hget, rfl, rfl⟩
      · exact absurd hres (by simp)

/-- Witness for C6 amended, applying the upper-bound discard part at a
concrete out-of-range index. -/
theorem C6_witness :
    hitResult [docLow] (1/2) (9/10, 5) = none :=
  (C6_bound_check [docLow] (1/2) (9/10) 5).1 (by decide)

/-- C10 counterexample: the claim asserts the persisted embedding differs from
the indexed vector unless the encoder output is unit-length.  With an encoder
returning the zero vector, the stored chunk embedding is the raw zero vector
and the indexed row is also the zero vector (faiss normalize_L2 leaves rows of
zero norm unchanged, its nr > 0 guard), yet the zero vector is not unit-length,
so the claim is false at this input. -/
theorem C10_counterexample :
    ((addDocuments capZero stEmpty "p" [] [⟨"note", mdHigh, none⟩]).1.documents.map
        (fun c => c.embedding)) = [some [0]] ∧
    (addDocuments capZero stEmpty "p" [] [⟨"note", mdHigh, none⟩]).1.index.rows =
      [[0]] ∧
    ¬ normSq [0] = 1 := by
  have hns : normSq [(0 : ℚ)] = 0 := by norm_num [normSq]
  refine ⟨rfl, ?_, by norm_num [normSq]⟩
  show [capZero.normRow [(0 : ℚ)]] = [[0]]
  show [if normSq [(0 : ℚ)] = 0 then [(0 : ℚ)] else []] = [[0]]
  rw [if_pos hns]

/-- C10 amended: add_documents stores the raw encoder output into every chunk
whose embedding is absent, keeps exactly those raw embeddings in the document
list and in the persisted documents artifact, adds the row-normalized vectors
to the index, and for every inserted chunk the indexed row equals the
persisted raw embedding exactly when that embedding has squared norm 1 (unit
length) or is the zero vector (which faiss normalize_L2 leaves unchanged). -/
theorem C10_raw_vs_indexed (cap : Capability)
    (hzero : ∀ v, normSq v = 0 → cap.normRow v = v)
    (hunit : ∀ v, normSq v = 1 → cap.normRow v = v)
    (hmove : ∀ v, normSq v ≠ 0 → normSq v ≠ 1 → cap.normRow v ≠ v)
    (st : VectorStore) (path : String) (d : Disk) (chunks : List DocumentChunk) :
    (∀ c ∈ chunks, c.embedding = none →
      (fillEmbedding cap c).embedding = some (cap.encode c.content)) ∧
    (addDocuments cap st path d chunks).1.documents =
      st.documents ++ chunks.map (fillEmbedding cap) ∧
    (chunks ≠ [] →
      (addDocuments cap st path d chunks).1.index.rows =
        st.index.rows ++
          chunks.map (fun c => cap.normRow (chunkVec (fillEmbedding cap c))) ∧
      dread (path, ArtKind.kDocs) (addDocuments cap st path d chunks).2 =
        some (Artifact.docsFile (st.documents ++ chunks.map (fillEmbedding cap)))) ∧
    (∀ c ∈ chunks,
      cap.normRow (chunkVec (fillEmbedding cap c)) = chunkVec (fillEmbedding cap c) ↔
        normSq (chunkVec (fillEmbedding cap c)) = 1 ∨
          normSq (chunkVec (fillEmbedding cap c)) = 0) := by
  have hne' : chunks ≠ [] → ¬ (chunks.map (fillEmbedding cap)).isEmpty = true := by
    intro hne
    simp [List.isEmpty_iff, hne]
  refine ⟨?_, ?_, ?_, ?_⟩
  · intro c _ h
    simp [fillEmbedding, h]
  · simp only [addDocuments]
    split
    · rename_i he
      have : chunks = [] := by
        simpa [List.isEmpty_iff, List.map_eq_nil_iff] using he
      simp [this]
    · rfl
  · intro hne
    constructor
    · simp only [addDocuments]
      rw [if_neg (hne' hne)]
      simp [List.map_map, Function.comp]
    · simp only [addDocuments]
      rw [if_neg (hne' hne)]
      simp [saveIndex, saveWrites, applyWrites, dread]
  · intro c _
    constructor
    · intro he
      by_cases h1 : normSq (chunkVec (fillEmbedding cap c)) = 1
      · exact Or.inl h1
      · by_cases h0 : normSq (chunkVec (fillEmbedding cap c)) = 0
        · exact Or.inr h0
        · exact absurd he (hmove _ h0 h1)
    · rintro (h1 | h0)
      · exact hunit _ h1
      · exact hzero _ h0

/-- Witness for C10 amended at a concrete capability whose normalize fixes
rows of squared norm 0 or 1 and moves all others. -/
theorem C10_witness :
    (addDocuments capNorm stEmpty "p" [] [⟨"note", mdLow, none⟩]).1.documents =
      [] ++ [DocumentChunk.mk "note" mdLow none].map (fillEmbedding capNorm) :=
  (C10_raw_vs_indexed capNorm
    (fun v h => by
      show (if normSq v = 0 ∨ normSq v = 1 then v else []) = v
      exact if_pos (Or.inl h))
    (fun v h => by
      show (if normSq v = 0 ∨ normSq v = 1 then v else []) = v
      exact if_pos (Or.inr h))
    (fun v h0 h1 => by
      show (if normSq v = 0 ∨ normSq v = 1 then v else []) ≠ v
      rw [if_neg (not_or.mpr ⟨h0, h1⟩)]
      intro he
      apply h0
      rw [← he]
      rfl)
    stEmpty "p" [] [⟨"note", mdLow, none⟩]).2.1

/-- C1: weighted_search fetches k*2 candidates from similarity_search at the
same threshold, attaches weighted_score = score * metadata.weight to each,
stably sorts them descending by weighted_score and returns the first k: the
result is literally the k-prefix of the stable descending sort of the
candidates, has length min k (number of candidates), is sorted descending by
weighted_score, consists of weighted candidates, the sort keeps equal-score
candidates in candidate order (filter characterization of stability), and on
two candidates with equal raw score 0.9 and weights 1.0 and 0.5 the
weight-1.0 candidate ranks first. -/
theorem C1_weightedSearch_ranking (cap : Capability) (st : VectorStore)
    (q : String) (t : ℚ) (k : Nat) (_hk : 1 ≤ k) :
    weightedSearch cap st q k t =
      (sortDesc ((similaritySearch cap st q (k * 2) t).map addWeight)).take k ∧
    (weightedSearch cap st q k t).length =
      min k ((similaritySearch cap st q (k * 2) t).map addWeight).length ∧
    SortedDesc (weightedSearch cap st q k t) ∧
    (∀ r ∈ weightedSearch cap st q k t,
      r.weighted_score = r.score * r.metadata.weight ∧
      ∃ s ∈ similaritySearch cap st q (k * 2) t, r = addWeight s) ∧
    (∀ c : ℚ,
      (sortDesc ((similaritySearch cap st q (k * 2) t).map addWeight)).filter
          (fun r => decide (r.weighted_score = c)) =
        ((similaritySearch cap st q (k * 2) t).map addWeight).filter
          (fun r => decide (r.weighted_score = c))) ∧
    (weightedSearch capEx stEx "query" 2 (45/100)).map (fun r => r.metadata.weight) =
      [1, 1/2] := by
  refine ⟨rfl, ?_, ?_, ?_, fun c => sortDesc_filter _ c, ?_⟩
  · show (List.take k (sortDesc _)).length = _
    rw [List.length_take, (sortDesc_perm _).length_eq]
  · show SortedDesc (List.take k (sortDesc _))
    exact List.Pairwise.sublist (List.take_sublist _ _) (sortDesc_sorted _)
  · intro r hr
    have hr1 : r ∈ sortDesc ((similaritySearch cap st q (k * 2) t).map addWeight) :=
      List.take_subset k _ hr
    have hr2 := (sortDesc_perm _).mem_iff.mp hr1
    obtain ⟨s, hs, heq⟩ := List.mem_map.mp hr2
    subst heq
    exact ⟨rfl, s, hs, rfl⟩
  · have h0 : hitResult [docLow, docHigh] (45/100) (9/10, 0) =
        some ⟨"low weight doc", mdLow, 9/10⟩ := by
      norm_num [hitResult, pyGet, docLow]
    have h1 : hitResult [docLow, docHigh] (45/100) (9/10, 1) =
        some ⟨"high weight doc", mdHigh, 9/10⟩ := by
      norm_num [hitResult, pyGet, docHigh]
    have hs : similaritySearch capEx stEx "query" (2 * 2) (45/100) =
        [⟨"low weight doc", mdLow, 9/10⟩, ⟨"high weight doc", mdHigh, 9/10⟩] := by
      unfold similaritySearch
      rw [if_neg (by decide)]
      show List.filterMap (hitResult [docLow, docHigh] (45/100))
        [((9 : ℚ)/10, (0 : Int)), ((9 : ℚ)/10, (1 : Int))] = _
      simp only [List.filterMap_cons, List.filterMap_nil, h0, h1]
    have ha0 : addWeight ⟨"low weight doc", mdLow, 9/10⟩ =
        ⟨"low weight doc", mdLow, 9/10, 9/20⟩ := by
      norm_num [addWeight, mdLow]
    have ha1 : addWeight ⟨"high weight doc", mdHigh, 9/10⟩ =
        ⟨"high weight doc", mdHigh, 9/10, 9/10⟩ := by
      norm_num [addWeight, mdHigh]
    have hsort : sortDesc [⟨"low weight doc", mdLow, 9/10, 9/20⟩,
          ⟨"high weight doc", mdHigh, 9/10, 9/10⟩] =
        [⟨"high weight doc", mdHigh, 9/10, 9/10⟩,
          ⟨"low weight doc", mdLow, 9/10, 9/20⟩] := by
      norm_num [sortDesc, insertDesc]
    have hw : weightedSearch capEx stEx "query" 2 (45/100) =
        [⟨"high weight doc", mdHigh, 9/10, 9/10⟩,
          ⟨"low weight doc", mdLow, 9/10, 9/20⟩] := by
      unfold weightedSearch
      rw [hs, List.map_cons, List.map_cons, List.map_nil, ha0, ha1, hsort]
      rfl
    rw [hw]
    norm_num [mdLow, mdHigh]

/-- Witness for C1 applying the sortedness part at a concrete k. -/
theorem C1_witness :
    SortedDesc (weightedSearch capEx stEx "query" 2 (45/100)) :=
  (C1_weightedSearch_ranking capEx stEx "query" (45/100) 2 (by decide)).2.2.1
